import Mathlib

/-!
Verification development for the apple-calendar-mcp Calendar Bridge
(`src/apple_calendar_mcp/calendar.py` and `src/apple_calendar_mcp/models.py`).

The Python code drives macOS EventKit through PyObjC.  We shallowly embed the
bridge: naive Python `datetime` values become a `DateTime` record compared
lexicographically; the external EventKit store becomes an explicit
`EKEventStore` state (calendar titles in enumeration order, the default
calendar, and the event records); host-reported save/remove outcomes become
explicit parameters.  Host behaviours that the repository only calls
(predicate queries, event lookup, removal) are modelled from the spec's
description of the host semantics and documented at each definition.
-/

/-- Naive Python `datetime` restricted to the fields the bridge reads
(`strftime` formats use year/month/day/hour/minute; comparisons are
lexicographic over the components, as in CPython). -/
structure DateTime where
  year : Nat
  month : Nat
  day : Nat
  hour : Nat
  minute : Nat
deriving DecidableEq, Repr

/-- Python `datetime` comparison: lexicographic on the components. -/
def DateTime.le (a b : DateTime) : Bool :=
  decide (a.year < b.year) ||
    (a.year == b.year &&
      (decide (a.month < b.month) ||
        (a.month == b.month &&
          (decide (a.day < b.day) ||
            (a.day == b.day &&
              (decide (a.hour < b.hour) ||
                (a.hour == b.hour && decide (a.minute ≤ b.minute))))))))

theorem DateTime.le_refl (a : DateTime) : DateTime.le a a = true := by
  simp [DateTime.le]

theorem DateTime.le_trans (a b c : DateTime) :
    DateTime.le a b = true → DateTime.le b c = true → DateTime.le a c = true := by
  simp only [DateTime.le, Bool.or_eq_true, Bool.and_eq_true, decide_eq_true_eq, beq_iff_eq]
  omega

theorem DateTime.le_total (a b : DateTime) :
    (DateTime.le a b || DateTime.le b a) = true := by
  simp only [DateTime.le, Bool.or_eq_true, Bool.and_eq_true, decide_eq_true_eq, beq_iff_eq]
  omega

/-- Days since 1970-01-01 of a civil date (Howard Hinnant's algorithm, the
arithmetic underlying Python's date ordinal).  Euclidean division is used;
within an era every divided quantity is nonnegative, so it agrees with the
C truncating division of the reference algorithm. -/
def daysFromCivil (y m d : Int) : Int :=
  let yAdj : Int := if m ≤ 2 then y - 1 else y
  let era : Int := Int.ediv yAdj 400
  let yoe : Int := yAdj - era * 400
  let mp : Int := if 2 < m then m - 3 else m + 9
  let doy : Int := Int.ediv (153 * mp + 2) 5 + d - 1
  let doe : Int := yoe * 365 + Int.ediv yoe 4 - Int.ediv yoe 100 + doy
  era * 146097 + doe - 719468

/-- Civil date of a count of days since 1970-01-01 (inverse of
`daysFromCivil`). -/
def civilFromDays (z0 : Int) : Int × Int × Int :=
  let z : Int := z0 + 719468
  let era : Int := Int.ediv z 146097
  let doe : Int := z - era * 146097
  let yoe : Int :=
    Int.ediv (doe - Int.ediv doe 1460 + Int.ediv doe 36524 - Int.ediv doe 146096) 365
  let y : Int := yoe + era * 400
  let doy : Int := doe - (365 * yoe + Int.ediv yoe 4 - Int.ediv yoe 100)
  let mp : Int := Int.ediv (5 * doy + 2) 153
  let d : Int := doy - Int.ediv (153 * mp + 2) 5 + 1
  let m : Int := if mp < 10 then mp + 3 else mp - 9
  (if m ≤ 2 then y + 1 else y, m, d)

/-- Python `dt + timedelta(days=n)` on a naive datetime: shift the civil date
by `n` days, keeping the time of day.  (Years before 1 AD would clamp at 0;
they are outside the bridge's domain.) -/
def addDays (dt : DateTime) (n : Int) : DateTime :=
  let z := daysFromCivil (Int.ofNat dt.year) (Int.ofNat dt.month) (Int.ofNat dt.day) + n
  let c := civilFromDays z
  { dt with year := c.1.toNat, month := c.2.1.toNat, day := c.2.2.toNat }

/-- Python `str(x)` on an optional string: Python renders `None` as `"None"`. -/
def pyStr : Option String → String
  | some s => s
  | none => "None"

/-- Python `str.lower()` (ASCII model of the Unicode lowering; the bridge
compares search keywords with it). -/
def pyLower (s : String) : String := String.map Char.toLower s

/-- Whether `needle` occurs at the head of `hay`. -/
def listStartsWith : List Char → List Char → Bool
  | [], _ => true
  | _ :: _, [] => false
  | n :: ns, h :: hs => n == h && listStartsWith ns hs

/-- Whether `needle` occurs contiguously anywhere in `hay`. -/
def listContainsSub (needle : List Char) : List Char → Bool
  | [] => needle.isEmpty
  | h :: hs => listStartsWith needle (h :: hs) || listContainsSub needle hs

/-- Python's `needle in hay` on strings: contiguous substring containment. -/
def pySubstr (needle hay : String) : Bool := listContainsSub needle.toList hay.toList

/-- Zero-padded two-digit rendering (`%m`, `%d`, `%H`, `%M`). -/
def fmtNat2 (n : Nat) : String := if n < 10 then ("0" ++ toString n) else toString n

/-- Zero-padded four-digit rendering (`%Y` as CPython prints in-range years). -/
def fmtNat4 (n : Nat) : String :=
  if n < 10 then ("000" ++ toString n)
  else if n < 100 then ("00" ++ toString n)
  else if n < 1000 then ("0" ++ toString n)
  else toString n

/-- Format `dt.strftime("%Y-%m-%d")`. -/
def strftimeDate (d : DateTime) : String :=
  fmtNat4 d.year ++ "-" ++ fmtNat2 d.month ++ "-" ++ fmtNat2 d.day

/-- Format `dt.strftime("%Y-%m-%d %H:%M")`. -/
def strftimeDateTime (d : DateTime) : String :=
  strftimeDate d ++ " " ++ fmtNat2 d.hour ++ ":" ++ fmtNat2 d.minute

/-- Source `models.RecurrenceRule.frequency` (a string literal type in the source). -/
inductive Frequency where
  | daily
  | weekly
  | monthly
  | yearly
deriving DecidableEq, Repr

/-- Source `models.RecurrenceRule`. -/
structure RecurrenceRule where
  frequency : Frequency
  interval : Int := 1
  end_date : Option DateTime := none
deriving DecidableEq, Repr

/-- An `EKRecurrenceRule` value as constructed by the bridge: an EventKit
frequency constant, an interval, and an optional recurrence end. -/
structure EKRecurrenceRule where
  frequency : Nat
  interval : Int
  endDate : Option DateTime
deriving DecidableEq, Repr

/-- The `freq_map` dictionary of `CalendarManager._to_ek_recurrence`
(EventKit frequency constants daily=0, weekly=1, monthly=2, yearly=3). -/
def freq_map : Frequency → Nat
  | .daily => 0
  | .weekly => 1
  | .monthly => 2
  | .yearly => 3

/-- Source `CalendarManager._to_ek_recurrence`: RecurrenceRule → EKRecurrenceRule.
A present `end_date` (always truthy in Python) becomes the recurrence end. -/
def to_ek_recurrence (rule : RecurrenceRule) : EKRecurrenceRule :=
  { frequency := freq_map rule.frequency
    interval := rule.interval
    endDate := rule.end_date }

/-- An `EKAlarm` created with `alarmWithRelativeOffset_` (seconds relative to
the event start). -/
structure EKAlarm where
  relativeOffset : Int
deriving DecidableEq, Repr

/-- A native EventKit event record as the bridge reads and mutates it.
Calendars are identified by their title (the only attribute the bridge
consults); `calendar` is the owning calendar's title when assigned. -/
structure EKEvent where
  eventIdentifier : String
  title : Option String
  startDate : DateTime
  endDate : DateTime
  isAllDay : Bool
  location : Option String
  notes : Option String
  url : Option String
  calendar : Option String
  alarms : List EKAlarm
  recurrenceRules : List EKRecurrenceRule
deriving DecidableEq, Repr

/-- Source `ekevent.hasRecurrenceRules()`. -/
def EKEvent.hasRecurrenceRules (ev : EKEvent) : Bool := !ev.recurrenceRules.isEmpty

/-- The state of the host's event store visible to the bridge: calendar
titles in enumeration order, the configured default calendar for new events,
and the stored event records. -/
structure EKEventStore where
  calendars : List String
  defaultCalendar : Option String
  events : List EKEvent
deriving Repr

/-- The error taxonomy of `calendar.py`: the base `CalendarError` (carrying a
message) and its subclasses `NoSuchCalendarError` and `NoSuchEventError`. -/
inductive CalendarError where
  | calendarError (msg : String)
  | noSuchCalendar (name : String)
  | noSuchEvent (id : String)
deriving DecidableEq, Repr

/-- EventKit span constant: this occurrence only. -/
def EKSpanThisEvent : Nat := 0

/-- EventKit span constant: this and future occurrences. -/
def EKSpanFutureEvents : Nat := 1

/-- Whether an error is a `NoSuchCalendarError` (Python `isinstance` test). -/
def CalendarError.isNoSuchCalendar : CalendarError → Bool
  | .noSuchCalendar _ => true
  | _ => false

/-- Source `models.Event`, the marshalled domain value. -/
structure Event where
  identifier : String
  title : String
  start_time : DateTime
  end_time : DateTime
  calendar_name : String
  location : Option String
  notes : Option String
  url : Option String
  all_day : Bool
  is_recurring : Bool
deriving DecidableEq, Repr

/-- Python `str(x) if x else None` on an optional string: `None` and the
empty string are falsy and give `None`. -/
def truthyStr : Option String → Option String
  | some t => if t == "" then none else some t
  | none => none

/-- Source `Event.from_ekevent`: marshal a native record into the domain model.
`str(ekevent.title() or "")` coerces a missing (or empty) title to `""`. -/
def Event.from_ekevent (ev : EKEvent) : Event :=
  { identifier := ev.eventIdentifier
    title := ev.title.getD ("")
    start_time := ev.startDate
    end_time := ev.endDate
    calendar_name := (ev.calendar).getD ("")
    location := truthyStr ev.location
    notes := truthyStr ev.notes
    url := truthyStr ev.url
    all_day := ev.isAllDay
    is_recurring := ev.hasRecurrenceRules }

/-- Source `Event.__str__`: choose the time format by the all-day flag, collect the
parts (calendar and location only when truthy), and join with " | ". -/
def Event.toStr (e : Event) : String :=
  let start := if e.all_day then strftimeDate e.start_time else strftimeDateTime e.start_time
  let stop := if e.all_day then strftimeDate e.end_time else strftimeDateTime e.end_time
  let parts := [e.title ++ " (" ++ start ++ " ~ " ++ stop ++ ")"]
  let parts := if e.calendar_name == "" then parts else parts ++ ["[" ++ e.calendar_name ++ "]"]
  let parts :=
    match e.location with
    | some l => if l == "" then parts else parts ++ ["@ " ++ l]
    | none => parts
  let parts := parts ++ ["ID: " ++ e.identifier]
  String.intercalate (" | ") parts

/-- Source `CalendarManager._find_calendar`: `None` resolves to the default calendar
(raising the base `CalendarError` when none is configured); a present name is
matched by exact string equality against the enumerated calendar titles,
first match wins, and no match raises `NoSuchCalendarError(name)`. -/
def find_calendar (store : EKEventStore) (name : Option String) :
    Except CalendarError String :=
  match name with
  | none =>
    match store.defaultCalendar with
    | none => .error (.calendarError ("기본 캘린더를 찾을 수 없습니다."))
    | some default => .ok default
  | some n =>
    match store.calendars.find? (fun cal => cal == n) with
    | some cal => .ok cal
    | none => .error (.noSuchCalendar n)

/-- Source `CalendarManager._find_event`: host lookup `eventWithIdentifier_`,
modelled as the first stored record with the given identifier; a missing
record raises `NoSuchEventError(event_id)`. -/
def find_event (store : EKEventStore) (event_id : String) :
    Except CalendarError EKEvent :=
  match store.events.find? (fun ev => ev.eventIdentifier == event_id) with
  | some ev => .ok ev
  | none => .error (.noSuchEvent event_id)

/-- Modelled from the spec: the host predicate query
`predicateForEventsWithStartDate_endDate_calendars_` +
`eventsMatchingPredicate_` — events overlapping the inclusive window
(an inverted window matches nothing), restricted to the given calendars when
a calendar list is supplied. -/
def eventsMatchingPredicate (store : EKEventStore) (s e : DateTime)
    (cals : Option (List String)) : List EKEvent :=
  store.events.filter (fun ev =>
    DateTime.le s e && DateTime.le ev.startDate e && DateTime.le s ev.endDate &&
      match cals with
      | none => true
      | some cs =>
        match ev.calendar with
        | some c => cs.contains c
        | none => false)

/-- The sort key of `list_events`: ascending event start time. -/
def startLe (a b : Event) : Bool := DateTime.le a.start_time b.start_time

/-- Source `CalendarManager.list_events`: resolve the calendar filter only when the
name is truthy (Python `if calendar_name:` — `None` and `""` skip it), query
the host predicate, marshal, and stably sort ascending by start time
(Python `sorted` with a `start_time` key; the early `return []` on an empty
query result coincides with sorting the empty list). -/
def list_events (store : EKEventStore) (start stop : DateTime)
    (calendar_name : Option String := none) : Except CalendarError (List Event) :=
  let calendars : Except CalendarError (Option (List String)) :=
    match calendar_name with
    | some n =>
      if n == "" then .ok none
      else
        match find_calendar store (some n) with
        | .error e => .error e
        | .ok cal => .ok (some [cal])
    | none => .ok none
  match calendars with
  | .error e => .error e
  | .ok cals =>
    .ok (List.mergeSort
      ((eventsMatchingPredicate store start stop cals).map Event.from_ekevent) startLe)

/-- The keyword filter of `CalendarManager.search_events`: the lowered
keyword must be a substring of the lowered title, notes, or location
(`e.title or ""` is the identity on the marshalled non-optional title;
missing notes/location read as `""`). -/
def matchesKeyword (kw : String) (e : Event) : Bool :=
  pySubstr kw (pyLower e.title) ||
    pySubstr kw (pyLower (e.notes.getD (""))) ||
      pySubstr kw (pyLower (e.location.getD ("")))

/-- Source `CalendarManager.search_events`: window `[now - days_back days,
now + days_forward days]`, list, then filter by the lowered keyword. -/
def search_events (store : EKEventStore) (now : DateTime) (keyword : String)
    (calendar_name : Option String := none) (days_back : Int := 30)
    (days_forward : Int := 90) : Except CalendarError (List Event) :=
  let start := addDays now (-days_back)
  let stop := addDays now days_forward
  match list_events store start stop calendar_name with
  | .error e => .error e
  | .ok events => .ok (events.filter (fun e => matchesKeyword (pyLower keyword) e))

/-- Source `models.UpdateEventRequest`: every field is a plain nullable (pydantic
`X | None = None`), so an explicit `null` in the request body and an absent
field deserialize to the same `none`. -/
structure UpdateEventRequest where
  title : Option String := none
  start_time : Option DateTime := none
  end_time : Option DateTime := none
  calendar_name : Option String := none
  location : Option String := none
  notes : Option String := none
  alarms_minutes_offsets : Option (List Int) := none
  url : Option String := none
  all_day : Option Bool := none
  recurrence_rule : Option RecurrenceRule := none
deriving DecidableEq, Repr

/-- The alarm- and recurrence-replacement steps of
`CalendarManager.update_event` (lines 212-224): when supplied, all existing
alarms are removed and one alarm per requested minute offset is added
(offset `-60 * minutes` seconds); when supplied, all existing recurrence
rules are removed and the one converted rule is added. -/
def apply_list_fields (ev0 : EKEvent) (req : UpdateEventRequest) : EKEvent :=
  let ev :=
    match req.alarms_minutes_offsets with
    | some offsets =>
      { ev0 with alarms := offsets.map (fun minutes => { relativeOffset := -60 * minutes }) }
    | none => ev0
  match req.recurrence_rule with
  | some rule => { ev with recurrenceRules := [to_ek_recurrence rule] }
  | none => ev

/-- The field-application phase of `CalendarManager.update_event`
(lines 194-224): each non-`None` request field is written through the
corresponding setter, in source order (title, start, end, all-day, location,
notes, url, calendar, alarms, recurrence); a supplied calendar name is
resolved through `_find_calendar` and its failure aborts the update. -/
def update_fields (store : EKEventStore) (ev0 : EKEvent) (req : UpdateEventRequest) :
    Except CalendarError EKEvent :=
  let ev := match req.title with | some t => { ev0 with title := some t } | none => ev0
  let ev := match req.start_time with | some t => { ev with startDate := t } | none => ev
  let ev := match req.end_time with | some t => { ev with endDate := t } | none => ev
  let ev := match req.all_day with | some b => { ev with isAllDay := b } | none => ev
  let ev := match req.location with | some l => { ev with location := some l } | none => ev
  let ev := match req.notes with | some n => { ev with notes := some n } | none => ev
  let ev := match req.url with | some u => { ev with url := some u } | none => ev
  match req.calendar_name with
  | some n =>
    match find_calendar store (some n) with
    | .error e => .error e
    | .ok cal => .ok (apply_list_fields { ev with calendar := some cal } req)
  | none => .ok (apply_list_fields ev req)

/-- The span selection shared by `update_event` (line 226) and
`delete_event` (line 240): `EKSpanFutureEvents` when the event carries a
recurrence rule, else `EKSpanThisEvent`. -/
def commitSpan (ev : EKEvent) : Nat :=
  if ev.hasRecurrenceRules then EKSpanFutureEvents else EKSpanThisEvent

/-- Source `CalendarManager.update_event`: look up by id, apply the supplied
fields, then commit with the recurrence-dependent span.  The host's save
outcome is the explicit `hostError` parameter (`none` = success); failure
raises the base `CalendarError` with the host diagnostic.  The result pairs
the saved native record (Python returns `Event.from_ekevent` of it) with the
span passed to `saveEvent_span_error_`. -/
def update_event (store : EKEventStore) (hostError : Option String)
    (event_id : String) (req : UpdateEventRequest) :
    Except CalendarError (EKEvent × Nat) :=
  match find_event store event_id with
  | .error e => .error e
  | .ok ekevent =>
    match update_fields store ekevent req with
    | .error e => .error e
    | .ok ekevent =>
      let span := commitSpan ekevent
      match hostError with
      | some err => .error (.calendarError ("이벤트 수정 실패: " ++ err))
      | none => .ok (ekevent, span)

/-- Modelled from the spec: the host's `removeEvent_span_error_` drops the
record, so a subsequent `findById` on the identifier raises `NoSuchEvent`
(spec §8 scenario).  Span-dependent series splitting is not observable in
this one-record-per-event store model. -/
def removeEventById (store : EKEventStore) (event_id : String) : EKEventStore :=
  { store with events := store.events.filter (fun ev => !(ev.eventIdentifier == event_id)) }

/-- The outcome of `delete_event`: the returned title or error, the store
after the call, and the span argument handed to the host (absent when the
lookup already failed). -/
structure DeleteResult where
  result : Except CalendarError String
  store : EKEventStore
  spanPassed : Option Nat

/-- Source `CalendarManager.delete_event`: look up by id (failure leaves the store
untouched), capture `str(ekevent.title())` before removal, remove with the
recurrence-dependent span, and return the captured title.  The host's remove
outcome is the explicit `hostError` parameter; failure raises the base
`CalendarError` with the host diagnostic. -/
def delete_event (store : EKEventStore) (hostError : Option String)
    (event_id : String) : DeleteResult :=
  match find_event store event_id with
  | .error e => { result := .error e, store := store, spanPassed := none }
  | .ok ekevent =>
    let title := pyStr ekevent.title
    let span := commitSpan ekevent
    match hostError with
    | some err =>
      { result := .error (.calendarError ("이벤트 삭제 실패: " ++ err))
        store := store
        spanPassed := some span }
    | none =>
      { result := .ok title
        store := removeEventById store event_id
        spanPassed := some span }

/-- The scalar-field phase of `update_fields` in closed form: each supplied
scalar field overwritten, each absent one kept (used to reason about the
sequential setter chain). -/
def appliedScalars (ev : EKEvent) (req : UpdateEventRequest) : EKEvent :=
  { ev with
    title := match req.title with | some t => some t | none => ev.title
    startDate := match req.start_time with | some t => t | none => ev.startDate
    endDate := match req.end_time with | some t => t | none => ev.endDate
    isAllDay := match req.all_day with | some b => b | none => ev.isAllDay
    location := match req.location with | some l => some l | none => ev.location
    notes := match req.notes with | some n => some n | none => ev.notes
    url := match req.url with | some u => some u | none => ev.url }

/-- The calendar restriction `list_events` hands to the host predicate: no
restriction for an absent or empty name, the singleton of the name when it
resolves. -/
def resolvedCalendarFilter (calendar_name : Option String) : Option (List String) :=
  match calendar_name with
  | none => none
  | some n => if n == "" then none else some [n]

/-- Whether a bridge result failed with a `NoSuchCalendarError`. -/
def resultIsNoSuchCalendar : Except CalendarError String → Bool
  | .error e => e.isNoSuchCalendar
  | .ok _ => false

/-- The serialization format exactly as the claim states it — the flat line
"{title} ({start} ~ {end}) [calendar] @ location | ID: {identifier}" with
date-only times when all-day — written from the claim's words for comparison
with `Event.toStr`. -/
def Event.claimedStr (e : Event) : String :=
  let start := if e.all_day then strftimeDate e.start_time else strftimeDateTime e.start_time
  let stop := if e.all_day then strftimeDate e.end_time else strftimeDateTime e.end_time
  e.title ++ " (" ++ start ++ " ~ " ++ stop ++ ") [" ++ e.calendar_name ++ "] @ "
    ++ e.location.getD ("") ++ " | ID: " ++ e.identifier

/-- The amended serialization claim, written from the spec's perspective:
the " | "-join of the segments title-with-times (date-only exactly when
all-day), "[calendar]" when the calendar name is non-empty, "@ location"
when a non-empty location is present, and "ID: {identifier}". -/
def Event.amendedStr (e : Event) : String :=
  let start := if e.all_day then strftimeDate e.start_time else strftimeDateTime e.start_time
  let stop := if e.all_day then strftimeDate e.end_time else strftimeDateTime e.end_time
  String.intercalate (" | ")
    ([e.title ++ " (" ++ start ++ " ~ " ++ stop ++ ")"] ++
      (if e.calendar_name == "" then [] else ["[" ++ e.calendar_name ++ "]"]) ++
      (match e.location with
       | some l => if l == "" then [] else ["@ " ++ l]
       | none => []) ++
      ["ID: " ++ e.identifier])

/-- A recurring sample event (one alarm, one weekly recurrence rule). -/
def sampleEvent : EKEvent :=
  { eventIdentifier := "e1"
    title := some ("Standup")
    startDate := { year := 2026, month := 2, day := 12, hour := 10, minute := 0 }
    endDate := { year := 2026, month := 2, day := 12, hour := 10, minute := 30 }
    isAllDay := false
    location := some ("Room 1")
    notes := none
    url := none
    calendar := some ("Work")
    alarms := [{ relativeOffset := -900 }]
    recurrenceRules := [{ frequency := 1, interval := 1, endDate := none }] }

/-- A non-recurring sample event on another calendar. -/
def samplePlainEvent : EKEvent :=
  { eventIdentifier := "e2"
    title := some ("Dentist")
    startDate := { year := 2026, month := 2, day := 11, hour := 9, minute := 0 }
    endDate := { year := 2026, month := 2, day := 11, hour := 9, minute := 45 }
    isAllDay := false
    location := none
    notes := some ("bring card")
    url := none
    calendar := some ("Home")
    alarms := []
    recurrenceRules := [] }

/-- A sample store with two calendars, a default, and the two sample
events. -/
def sampleStore : EKEventStore :=
  { calendars := ["Work", "Home"]
    defaultCalendar := some ("Work")
    events := [sampleEvent, samplePlainEvent] }

/-- A store with calendars but no configured default calendar. -/
def storeNoDefault : EKEventStore :=
  { calendars := ["Work"], defaultCalendar := none, events := [] }

/-- An entirely empty store (no calendars, no default, no events). -/
def emptyStore : EKEventStore :=
  { calendars := [], defaultCalendar := none, events := [] }

/-- A fixed instant used by concrete counterexamples and witnesses. -/
def dt2026 : DateTime := { year := 2026, month := 2, day := 12, hour := 0, minute := 0 }

/-- A concrete event value exercising the serialization counterexample. -/
def c7event : Event :=
  { identifier := "id1"
    title := "Standup"
    start_time := { year := 2026, month := 2, day := 12, hour := 10, minute := 0 }
    end_time := { year := 2026, month := 2, day := 12, hour := 10, minute := 30 }
    calendar_name := "Work"
    location := some ("Room 1")
    notes := none
    url := none
    all_day := false
    is_recurring := false }

theorem apply_list_fields_eventIdentifier (ev : EKEvent) (req : UpdateEventRequest) :
    (apply_list_fields ev req).eventIdentifier = ev.eventIdentifier := by
  unfold apply_list_fields
  cases req.alarms_minutes_offsets <;> cases req.recurrence_rule <;> rfl

theorem apply_list_fields_title (ev : EKEvent) (req : UpdateEventRequest) :
    (apply_list_fields ev req).title = ev.title := by
  unfold apply_list_fields
  cases req.alarms_minutes_offsets <;> cases req.recurrence_rule <;> rfl

theorem apply_list_fields_startDate (ev : EKEvent) (req : UpdateEventRequest) :
    (apply_list_fields ev req).startDate = ev.startDate := by
  unfold apply_list_fields
  cases req.alarms_minutes_offsets <;> cases req.recurrence_rule <;> rfl

theorem apply_list_fields_endDate (ev : EKEvent) (req : UpdateEventRequest) :
    (apply_list_fields ev req).endDate = ev.endDate := by
  unfold apply_list_fields
  cases req.alarms_minutes_offsets <;> cases req.recurrence_rule <;> rfl

theorem apply_list_fields_isAllDay (ev : EKEvent) (req : UpdateEventRequest) :
    (apply_list_fields ev req).isAllDay = ev.isAllDay := by
  unfold apply_list_fields
  cases req.alarms_minutes_offsets <;> cases req.recurrence_rule <;> rfl

theorem apply_list_fields_location (ev : EKEvent) (req : UpdateEventRequest) :
    (apply_list_fields ev req).location = ev.location := by
  unfold apply_list_fields
  cases req.alarms_minutes_offsets <;> cases req.recurrence_rule <;> rfl

theorem apply_list_fields_notes (ev : EKEvent) (req : UpdateEventRequest) :
    (apply_list_fields ev req).notes = ev.notes := by
  unfold apply_list_fields
  cases req.alarms_minutes_offsets <;> cases req.recurrence_rule <;> rfl

theorem apply_list_fields_url (ev : EKEvent) (req : UpdateEventRequest) :
    (apply_list_fields ev req).url = ev.url := by
  unfold apply_list_fields
  cases req.alarms_minutes_offsets <;> cases req.recurrence_rule <;> rfl

theorem apply_list_fields_calendar (ev : EKEvent) (req : UpdateEventRequest) :
    (apply_list_fields ev req).calendar = ev.calendar := by
  unfold apply_list_fields
  cases req.alarms_minutes_offsets <;> cases req.recurrence_rule <;> rfl

theorem apply_list_fields_alarms (ev : EKEvent) (req : UpdateEventRequest) :
    (apply_list_fields ev req).alarms =
      match req.alarms_minutes_offsets with
      | some offsets => offsets.map (fun minutes => { relativeOffset := -60 * minutes })
      | none => ev.alarms := by
  unfold apply_list_fields
  cases req.alarms_minutes_offsets <;> cases req.recurrence_rule <;> rfl

theorem apply_list_fields_recurrenceRules (ev : EKEvent) (req : UpdateEventRequest) :
    (apply_list_fields ev req).recurrenceRules =
      match req.recurrence_rule with
      | some rule => [to_ek_recurrence rule]
      | none => ev.recurrenceRules := by
  unfold apply_list_fields
  cases req.alarms_minutes_offsets <;> cases req.recurrence_rule <;> rfl

theorem update_fields_eq (store : EKEventStore) (ev : EKEvent) (req : UpdateEventRequest) :
    update_fields store ev req =
      match req.calendar_name with
      | some n =>
        match find_calendar store (some n) with
        | .error e => .error e
        | .ok cal => .ok (apply_list_fields { appliedScalars ev req with calendar := some cal } req)
      | none => .ok (apply_list_fields (appliedScalars ev req) req) := by
  unfold update_fields appliedScalars
  cases req.title <;> cases req.start_time <;> cases req.end_time <;> cases req.all_day <;>
    cases req.location <;> cases req.notes <;> cases req.url <;> rfl

theorem find_self_of_mem (l : List String) (n : String) (h : n ∈ l) :
    l.find? (fun cal => cal == n) = some n := by
  induction l with
  | nil => cases h
  | cons a t ih =>
    by_cases ha : a = n
    · subst ha
      simp [List.find?_cons]
    · have hmem : n ∈ t := by
        cases h with
        | head => exact absurd rfl ha
        | tail _ h => exact h
      have : (a == n) = false := by simp [ha]
      simp [List.find?_cons, this, ih hmem]

theorem find_none_of_not_mem (l : List String) (n : String) (h : n ∉ l) :
    l.find? (fun cal => cal == n) = none := by
  rw [List.find?_eq_none]
  intro x hx
  simp only [beq_iff_eq]
  intro hxn
  exact h (hxn ▸ hx)

theorem find_calendar_ok_name (store : EKEventStore) (n cal : String)
    (h : find_calendar store (some n) = .ok cal) : cal = n := by
  cases hf : store.calendars.find? (fun c => c == n) with
  | none => simp [find_calendar, hf] at h
  | some c =>
    simp only [find_calendar, hf] at h
    cases h
    have hp := List.find?_some hf
    exact eq_of_beq hp

theorem startLe_trans (a b c : Event) :
    startLe a b = true → startLe b c = true → startLe a c = true :=
  DateTime.le_trans a.start_time b.start_time c.start_time

theorem startLe_total (a b : Event) : (startLe a b || startLe b a) = true :=
  DateTime.le_total a.start_time b.start_time

theorem pairwise_startLe_of_const (t : DateTime) (m : List Event)
    (h : ∀ x ∈ m, x.start_time = t) : m.Pairwise (fun a b => startLe a b = true) := by
  induction m with
  | nil => exact List.Pairwise.nil
  | cons a as ih =>
    refine List.Pairwise.cons ?_ (ih ?_)
    · intro b hb
      have ha := h a (List.mem_cons_self a as)
      have hbt := h b (List.mem_cons_of_mem a hb)
      unfold startLe
      rw [ha, hbt]
      exact DateTime.le_refl t
    · intro x hx
      exact h x (List.mem_cons_of_mem a hx)

theorem mergeSort_filter_startkey (l : List Event) (t : DateTime) :
    (List.mergeSort l startLe).filter (fun x => x.start_time == t) =
      l.filter (fun x => x.start_time == t) := by
  have hsub1 : List.Sublist (l.filter (fun x => x.start_time == t)) l := List.filter_sublist l
  have hpw : (l.filter (fun x => x.start_time == t)).Pairwise (fun a b => startLe a b = true) := by
    refine pairwise_startLe_of_const t _ ?_
    intro x hx
    have := (List.mem_filter.mp hx).2
    exact eq_of_beq this
  have hsub2 : List.Sublist (l.filter (fun x => x.start_time == t)) (List.mergeSort l startLe) :=
    List.sublist_mergeSort startLe_trans startLe_total hpw hsub1
  have hsub3 : List.Sublist (l.filter (fun x => x.start_time == t))
      ((List.mergeSort l startLe).filter (fun x => x.start_time == t)) := by
    have hf := hsub2.filter (fun x => x.start_time == t)
    rwa [List.filter_filter, (by
      funext a
      exact Bool.and_self (a.start_time == t) : (fun a : Event =>
        ((a.start_time == t) && (a.start_time == t))) = fun a => a.start_time == t)] at hf
  have hperm : ((List.mergeSort l startLe).filter (fun x => x.start_time == t)).Perm
      (l.filter (fun x => x.start_time == t)) :=
    (List.mergeSort_perm l startLe).filter (fun x => x.start_time == t)
  exact (hsub3.eq_of_length hperm.length_eq.symm).symm

theorem update_fields_eq_none (store : EKEventStore) (ev : EKEvent)
    (req : UpdateEventRequest) (hcal : req.calendar_name = none) :
    update_fields store ev req = .ok (apply_list_fields (appliedScalars ev req) req) := by
  rw [update_fields_eq, hcal]

theorem update_fields_eq_some (store : EKEventStore) (ev : EKEvent)
    (req : UpdateEventRequest) (n : String) (hcal : req.calendar_name = some n) :
    update_fields store ev req =
      match find_calendar store (some n) with
      | .error e => .error e
      | .ok cal =>
        .ok (apply_list_fields { appliedScalars ev req with calendar := some cal } req) := by
  rw [update_fields_eq, hcal]

/-- C1: for every update request and every event found by id, the update
phase of `update_event` touches only the fields explicitly supplied in the
request — each present field overwrites the event's corresponding field
unconditionally (the calendar with its resolved handle, alarms and
recurrence with the wholesale replacements), and each absent field, as well
as the identifier, is left unchanged. -/
theorem update_partial_semantics (store : EKEventStore) (ev : EKEvent)
    (req : UpdateEventRequest) (ev' : EKEvent)
    (h : update_fields store ev req = .ok ev') :
    ev'.eventIdentifier = ev.eventIdentifier ∧
    (req.title = none → ev'.title = ev.title) ∧
    (∀ t, req.title = some t → ev'.title = some t) ∧
    (req.start_time = none → ev'.startDate = ev.startDate) ∧
    (∀ t, req.start_time = some t → ev'.startDate = t) ∧
    (req.end_time = none → ev'.endDate = ev.endDate) ∧
    (∀ t, req.end_time = some t → ev'.endDate = t) ∧
    (req.all_day = none → ev'.isAllDay = ev.isAllDay) ∧
    (∀ b, req.all_day = some b → ev'.isAllDay = b) ∧
    (req.location = none → ev'.location = ev.location) ∧
    (∀ l, req.location = some l → ev'.location = some l) ∧
    (req.notes = none → ev'.notes = ev.notes) ∧
    (∀ s, req.notes = some s → ev'.notes = some s) ∧
    (req.url = none → ev'.url = ev.url) ∧
    (∀ u, req.url = some u → ev'.url = some u) ∧
    (req.calendar_name = none → ev'.calendar = ev.calendar) ∧
    (∀ n, req.calendar_name = some n → ev'.calendar = some n) ∧
    (req.alarms_minutes_offsets = none → ev'.alarms = ev.alarms) ∧
    (∀ offsets, req.alarms_minutes_offsets = some offsets →
      ev'.alarms = offsets.map (fun minutes => { relativeOffset := -60 * minutes })) ∧
    (req.recurrence_rule = none → ev'.recurrenceRules = ev.recurrenceRules) ∧
    (∀ rule, req.recurrence_rule = some rule →
      ev'.recurrenceRules = [to_ek_recurrence rule]) := by
  cases hcal : req.calendar_name with
  | none =>
    rw [update_fields_eq_none store ev req hcal] at h
    have hev : ev' = apply_list_fields (appliedScalars ev req) req := by
      cases h
      rfl
    subst hev
    refine ⟨?_, ?_, ?_, ?_, ?_, ?_, ?_, ?_, ?_, ?_, ?_, ?_, ?_, ?_, ?_, ?_, ?_, ?_, ?_, ?_,
      ?_⟩ <;>
      simp only [apply_list_fields_eventIdentifier, apply_list_fields_title,
        apply_list_fields_startDate, apply_list_fields_endDate, apply_list_fields_isAllDay,
        apply_list_fields_location, apply_list_fields_notes, apply_list_fields_url,
        apply_list_fields_calendar, apply_list_fields_alarms,
        apply_list_fields_recurrenceRules, appliedScalars]
    all_goals first
      | rfl
      | (intro h1; simp [h1])
      | (intro x h1; exact Option.noConfusion h1)
      | (intro x h1; simp [h1])
  | some n =>
    rw [update_fields_eq_some store ev req n hcal] at h
    cases hf : find_calendar store (some n) with
    | error e =>
      rw [hf] at h
      cases h
    | ok cal =>
      rw [hf] at h
      have hev : ev' = apply_list_fields { appliedScalars ev req with calendar := some cal } req := by
        cases h
        rfl
      subst hev
      have hcaln : cal = n := find_calendar_ok_name store n cal hf
      subst hcaln
      refine ⟨?_, ?_, ?_, ?_, ?_, ?_, ?_, ?_, ?_, ?_, ?_, ?_, ?_, ?_, ?_, ?_, ?_, ?_, ?_, ?_,
        ?_⟩ <;>
        simp only [apply_list_fields_eventIdentifier, apply_list_fields_title,
          apply_list_fields_startDate, apply_list_fields_endDate, apply_list_fields_isAllDay,
          apply_list_fields_location, apply_list_fields_notes, apply_list_fields_url,
          apply_list_fields_calendar, apply_list_fields_alarms,
          apply_list_fields_recurrenceRules, appliedScalars]
      all_goals first
        | rfl
        | (intro h1; exact Option.noConfusion h1)
        | (intro h1; simp [h1])
        | (intro x h1; injection h1 with h2; subst h2; rfl)
        | (intro x h1; simp [h1])

/-- Witness for C1: a request supplying only a new title is applied to the
recurring sample event; the identifier is untouched. -/
theorem update_partial_semantics_witness :
    update_fields sampleStore sampleEvent { title := some ("Retro") } =
      .ok { sampleEvent with title := some ("Retro") } ∧
    ({ sampleEvent with title := some ("Retro") } : EKEvent).eventIdentifier =
      sampleEvent.eventIdentifier :=
  ⟨rfl, (update_partial_semantics sampleStore sampleEvent { title := some ("Retro") }
    { sampleEvent with title := some ("Retro") } rfl).1⟩

/-- Counterexample for C2: the request type has plain nullable fields, so a
request supplying `null` for alarms and recurrence IS the all-`none` request;
applying it to the recurring sample event (which has an alarm and a
recurrence rule) leaves both lists untouched instead of clearing them. -/
theorem update_null_keeps_lists_counterexample :
    update_fields sampleStore sampleEvent {} = .ok sampleEvent ∧
    sampleEvent.alarms ≠ [] ∧ sampleEvent.recurrenceRules ≠ [] :=
  ⟨rfl, by decide, by decide⟩

/-- C2 (amended): alarms and recurrence supplied as non-null values are
replaced wholesale — all existing alarms/rules are removed, then the newly
supplied ones (possibly none, for an empty alarms list) are added — while
supplying null is indistinguishable from leaving the field absent and keeps
the existing alarms/rules; in particular recurrence cannot be cleared
through an update. -/
theorem update_list_replacement_amended (store : EKEventStore) (ev : EKEvent)
    (req : UpdateEventRequest) (ev' : EKEvent)
    (h : update_fields store ev req = .ok ev') :
    (∀ offsets, req.alarms_minutes_offsets = some offsets →
      ev'.alarms = offsets.map (fun minutes => { relativeOffset := -60 * minutes })) ∧
    (req.alarms_minutes_offsets = some [] → ev'.alarms = []) ∧
    (req.alarms_minutes_offsets = none → ev'.alarms = ev.alarms) ∧
    (∀ rule, req.recurrence_rule = some rule →
      ev'.recurrenceRules = [to_ek_recurrence rule]) ∧
    (req.recurrence_rule = none → ev'.recurrenceRules = ev.recurrenceRules) := by
  cases hcal : req.calendar_name with
  | none =>
    rw [update_fields_eq_none store ev req hcal] at h
    have hev : ev' = apply_list_fields (appliedScalars ev req) req := by
      cases h
      rfl
    subst hev
    refine ⟨?_, ?_, ?_, ?_, ?_⟩ <;>
      simp only [apply_list_fields_alarms, apply_list_fields_recurrenceRules, appliedScalars]
    all_goals first
      | (intro h1; simp [h1])
      | (intro x h1; simp [h1])
  | some n =>
    rw [update_fields_eq_some store ev req n hcal] at h
    cases hf : find_calendar store (some n) with
    | error e =>
      rw [hf] at h
      cases h
    | ok cal =>
      rw [hf] at h
      have hev : ev' = apply_list_fields { appliedScalars ev req with calendar := some cal } req := by
        cases h
        rfl
      subst hev
      refine ⟨?_, ?_, ?_, ?_, ?_⟩ <;>
        simp only [apply_list_fields_alarms, apply_list_fields_recurrenceRules, appliedScalars]
      all_goals first
        | (intro h1; simp [h1])
        | (intro x h1; simp [h1])

/-- Witness for C2 (amended): supplying the empty alarms list clears the
sample event's alarm. -/
theorem update_list_replacement_amended_witness :
    update_fields sampleStore sampleEvent { alarms_minutes_offsets := some [] } =
      .ok { sampleEvent with alarms := [] } ∧
    ({ sampleEvent with alarms := [] } : EKEvent).alarms = [] :=
  ⟨rfl, (update_list_replacement_amended sampleStore sampleEvent
    { alarms_minutes_offsets := some [] } { sampleEvent with alarms := [] } rfl).2.1 rfl⟩

/-- C3: both update and delete choose the save/remove span from the event's
recurrence state at commit time — for update from the event after the
request's edits were applied, for delete from the event as found — using
the future-occurrences span exactly when a recurrence rule is attached. -/
theorem update_delete_commit_span (store : EKEventStore) (hostError : Option String)
    (event_id : String) (req : UpdateEventRequest) (ev' : EKEvent) (span : Nat)
    (ev : EKEvent) :
    (update_event store hostError event_id req = .ok (ev', span) →
      span = (if ev'.recurrenceRules = [] then EKSpanThisEvent else EKSpanFutureEvents)) ∧
    (find_event store event_id = .ok ev →
      (delete_event store hostError event_id).spanPassed =
        some (if ev.recurrenceRules = [] then EKSpanThisEvent else EKSpanFutureEvents)) := by
  constructor
  · intro h
    unfold update_event at h
    cases hfind : find_event store event_id with
    | error e => simp only [hfind] at h; cases h
    | ok ev0 =>
      simp only [hfind] at h
      cases hupd : update_fields store ev0 req with
      | error e => simp only [hupd] at h; cases h
      | ok ev1 =>
        simp only [hupd] at h
        cases hhost : hostError with
        | some err => simp only [hhost] at h; cases h
        | none =>
          simp only [hhost, Except.ok.injEq, Prod.mk.injEq] at h
          obtain ⟨h3, h4⟩ := h
          subst h3
          subst h4
          cases hrl : ev1.recurrenceRules with
          | nil => simp [commitSpan, EKEvent.hasRecurrenceRules, hrl]
          | cons a t => simp [commitSpan, EKEvent.hasRecurrenceRules, hrl]
  · intro h
    unfold delete_event
    simp only [h]
    cases hhost : hostError with
    | some err =>
      simp only [hhost]
      cases hrl : ev.recurrenceRules with
      | nil => simp [commitSpan, EKEvent.hasRecurrenceRules, hrl]
      | cons a t => simp [commitSpan, EKEvent.hasRecurrenceRules, hrl]
    | none =>
      simp only [hhost]
      cases hrl : ev.recurrenceRules with
      | nil => simp [commitSpan, EKEvent.hasRecurrenceRules, hrl]
      | cons a t => simp [commitSpan, EKEvent.hasRecurrenceRules, hrl]

/-- Witness for C3: deleting the recurring sample event passes the
future-occurrences span to the host. -/
theorem update_delete_commit_span_witness :
    find_event sampleStore ("e1") = .ok sampleEvent ∧
    (delete_event sampleStore none ("e1")).spanPassed =
      some (if sampleEvent.recurrenceRules = [] then EKSpanThisEvent else EKSpanFutureEvents) :=
  ⟨rfl, (update_delete_commit_span sampleStore none ("e1") {} sampleEvent 0 sampleEvent).2 rfl⟩

/-- Counterexample for C4: with no configured default calendar, resolving an
absent name fails with the base `CalendarError`, not with a
`NoSuchCalendarError` as the claim states. -/
theorem find_calendar_default_error_counterexample :
    find_calendar storeNoDefault none =
      .error (.calendarError ("기본 캘린더를 찾을 수 없습니다.")) ∧
    resultIsNoSuchCalendar (find_calendar storeNoDefault none) = false :=
  ⟨rfl, rfl⟩

/-- C4 (amended): an absent name resolves to the host's default calendar for
new events and fails with the base `CalendarError` (not `NoSuchCalendar`)
when no default exists; a present name returns the calendar whose title
equals the name by exact case-sensitive comparison and raises
`NoSuchCalendar(name)` when no title matches. -/
theorem find_calendar_resolution_amended (store : EKEventStore) (n : String) :
    (∀ d, store.defaultCalendar = some d → find_calendar store none = .ok d) ∧
    (store.defaultCalendar = none →
      find_calendar store none = .error (.calendarError ("기본 캘린더를 찾을 수 없습니다."))) ∧
    (n ∈ store.calendars → find_calendar store (some n) = .ok n) ∧
    (n ∉ store.calendars → find_calendar store (some n) = .error (.noSuchCalendar n)) := by
  refine ⟨?_, ?_, ?_, ?_⟩
  · intro d hd
    simp [find_calendar, hd]
  · intro hd
    simp [find_calendar, hd]
  · intro hmem
    simp [find_calendar, find_self_of_mem store.calendars n hmem]
  · intro hmem
    simp [find_calendar, find_none_of_not_mem store.calendars n hmem]

/-- Witness for C4 (amended): the sample store resolves "Home" and reports
`NoSuchCalendar` for "Nonexistent". -/
theorem find_calendar_resolution_amended_witness :
    ("Home" ∈ sampleStore.calendars ∧ find_calendar sampleStore (some ("Home")) = .ok ("Home")) ∧
    ("Nonexistent" ∉ sampleStore.calendars ∧
      find_calendar sampleStore (some ("Nonexistent")) = .error (.noSuchCalendar ("Nonexistent"))) :=
  ⟨⟨by decide, (find_calendar_resolution_amended sampleStore ("Home")).2.2.1 (by decide)⟩,
   ⟨by decide, (find_calendar_resolution_amended sampleStore ("Nonexistent")).2.2.2 (by decide)⟩⟩

/-- C5: with the default offsets (30 days back, 90 days forward) and no
calendar filter, search never errors and returns exactly the marshalled
events of store records overlapping the window
[now - 30 days, now + 90 days] whose title, notes, or location contains the
keyword case-insensitively (absent notes/location reading as ""). -/
theorem search_events_default_window_exact (store : EKEventStore) (now : DateTime)
    (keyword : String) :
    ∃ r, search_events store now keyword none 30 90 = .ok r ∧
      ∀ x : Event, x ∈ r ↔
        ((∃ ek, ek ∈ store.events ∧
            DateTime.le (addDays now (-30)) (addDays now 90) = true ∧
            DateTime.le ek.startDate (addDays now 90) = true ∧
            DateTime.le (addDays now (-30)) ek.endDate = true ∧
            x = Event.from_ekevent ek) ∧
          matchesKeyword (pyLower keyword) x = true) := by
  refine ⟨_, rfl, ?_⟩
  intro x
  simp only [List.mem_filter, List.mem_mergeSort, List.mem_map, eventsMatchingPredicate,
    Bool.and_eq_true, Bool.and_true, and_true]
  constructor
  · rintro ⟨⟨ek, ⟨hek, hles⟩, hfx⟩, hkw⟩
    exact ⟨⟨ek, hek, hles.1.1, hles.1.2, hles.2, hfx.symm⟩, hkw⟩
  · rintro ⟨⟨ek, hek, hle1, hle2, hle3, hfx⟩, hkw⟩
    exact ⟨⟨ek, ⟨hek, ⟨⟨hle1, hle2⟩, hle3⟩⟩, hfx.symm⟩, hkw⟩

/-- Counterexample for C6: on a store with no events at all, listing with a
non-empty calendar name that names no calendar raises `NoSuchCalendar`
instead of returning the empty sequence, so "never an error when no events
match" fails as universally quantified over calendar names. -/
theorem list_events_missing_calendar_error_counterexample :
    emptyStore.events = [] ∧
    list_events emptyStore dt2026 dt2026 (some ("Nonexistent")) =
      .error (.noSuchCalendar ("Nonexistent")) :=
  ⟨rfl, rfl⟩

/-- C6 (amended): whenever the calendar filter resolves (absent, empty, or
an existing title), listing returns the window-matching marshalled events
sorted ascending by start time, with the order of events of equal start
time preserved from the store's enumeration order, and yields the empty
sequence — not an error — for an empty window or when nothing matches; a
non-empty name matching no calendar still raises `NoSuchCalendar` even for
an empty window. -/
theorem list_events_sorted_amended (store : EKEventStore) (s e : DateTime)
    (calendar_name : Option String)
    (hcal : match calendar_name with
            | none => True
            | some n => n = "" ∨ n ∈ store.calendars) :
    ∃ r, list_events store s e calendar_name = .ok r ∧
      r.Pairwise (fun a b => startLe a b = true) ∧
      (∀ x : Event, x ∈ r ↔
        x ∈ (eventsMatchingPredicate store s e
          (resolvedCalendarFilter calendar_name)).map Event.from_ekevent) ∧
      (∀ t, r.filter (fun x => x.start_time == t) =
        ((eventsMatchingPredicate store s e
          (resolvedCalendarFilter calendar_name)).map Event.from_ekevent).filter
            (fun x => x.start_time == t)) ∧
      (DateTime.le s e = false → r = []) := by
  have hlist : list_events store s e calendar_name =
      .ok (List.mergeSort ((eventsMatchingPredicate store s e
        (resolvedCalendarFilter calendar_name)).map Event.from_ekevent) startLe) := by
    cases calendar_name with
    | none => rfl
    | some n =>
      by_cases hne : n = ""
      · subst hne
        rfl
      · have hmem : n ∈ store.calendars := by
          rcases hcal with h0 | h0
          · exact absurd h0 hne
          · exact h0
        have hnb : (n == "") = false := by simp [hne]
        simp [list_events, resolvedCalendarFilter, hnb, find_calendar,
          find_self_of_mem store.calendars n hmem]
  refine ⟨_, hlist, List.sorted_mergeSort startLe_trans startLe_total _, ?_, ?_, ?_⟩
  · intro x
    exact List.mem_mergeSort
  · intro t
    exact mergeSort_filter_startkey _ t
  · intro hse
    have hM : eventsMatchingPredicate store s e (resolvedCalendarFilter calendar_name) = [] := by
      unfold eventsMatchingPredicate
      rw [List.filter_eq_nil_iff]
      intro a ha
      simp [hse]
    rw [hM]
    simp

/-- Witness for C6 (amended): instantiated at the sample store with the
existing calendar name "Work". -/
theorem list_events_sorted_amended_witness :
    ∃ r, list_events sampleStore dt2026 dt2026 (some ("Work")) = .ok r ∧
      r.Pairwise (fun a b => startLe a b = true) ∧
      (∀ x : Event, x ∈ r ↔
        x ∈ (eventsMatchingPredicate sampleStore dt2026 dt2026
          (resolvedCalendarFilter (some ("Work")))).map Event.from_ekevent) ∧
      (∀ t, r.filter (fun x => x.start_time == t) =
        ((eventsMatchingPredicate sampleStore dt2026 dt2026
          (resolvedCalendarFilter (some ("Work")))).map Event.from_ekevent).filter
            (fun x => x.start_time == t)) ∧
      (DateTime.le dt2026 dt2026 = false → r = []) :=
  list_events_sorted_amended sampleStore dt2026 dt2026 (some ("Work"))
    (by
      show ("Work") = "" ∨ "Work" ∈ sampleStore.calendars
      exact Or.inr (by decide))

/-- Counterexample for C7: on a concrete event with a calendar and a
location, `__str__` inserts " | " between all parts
("Standup (...) | [Work] | @ Room 1 | ID: id1"), not the claimed
"{title} ({start} ~ {end}) [calendar] @ location | ID: {identifier}". -/
theorem event_str_format_counterexample :
    Event.toStr c7event ≠ Event.claimedStr c7event := by decide

/-- C7 (amended): the serialization is the " | "-join of the segments
title-with-times (date-only in both positions exactly when the all-day flag
is true), "[calendar]" only when the calendar name is non-empty,
"@ location" only when a non-empty location is present, and
"ID: {identifier}". -/
theorem event_str_format_amended (e : Event) : Event.toStr e = Event.amendedStr e := by
  unfold Event.toStr Event.amendedStr
  cases hl : e.location with
  | none => by_cases hc : e.calendar_name == "" <;> simp [hc]
  | some l =>
    by_cases hc : e.calendar_name == "" <;> by_cases hle : l == "" <;> simp [hc, hle]

/-- C8: deleting an id not in the store raises `NoSuchEvent(id)` and leaves
the store unchanged (under either host outcome); deleting an existing event
captures its title before removal and returns it on success (after which the
id no longer resolves), while a host removal failure raises the delete
error with the host's diagnostic and the record remains. -/
theorem delete_event_contract (store : EKEventStore) (event_id : String) (diag : String) :
    ((∀ ek ∈ store.events, ek.eventIdentifier ≠ event_id) →
      delete_event store none event_id =
        { result := .error (.noSuchEvent event_id), store := store, spanPassed := none } ∧
      delete_event store (some diag) event_id =
        { result := .error (.noSuchEvent event_id), store := store, spanPassed := none }) ∧
    (∀ ev, find_event store event_id = .ok ev →
      (delete_event store none event_id).result = .ok (pyStr ev.title) ∧
      (delete_event store none event_id).store = removeEventById store event_id ∧
      find_event (delete_event store none event_id).store event_id =
        .error (.noSuchEvent event_id) ∧
      (delete_event store (some diag) event_id).result =
        .error (.calendarError ("이벤트 삭제 실패: " ++ diag)) ∧
      (delete_event store (some diag) event_id).store = store) := by
  constructor
  · intro hnone
    have hfind : find_event store event_id = .error (.noSuchEvent event_id) := by
      unfold find_event
      have hn : store.events.find? (fun ev => ev.eventIdentifier == event_id) = none := by
        rw [List.find?_eq_none]
        intro x hx
        simp [hnone x hx]
      rw [hn]
    constructor <;> simp [delete_event, hfind]
  · intro ev hfind
    have h1 : delete_event store none event_id =
        { result := .ok (pyStr ev.title), store := removeEventById store event_id,
          spanPassed := some (commitSpan ev) } := by
      unfold delete_event
      simp [hfind]
    have h2 : delete_event store (some diag) event_id =
        { result := .error (.calendarError ("이벤트 삭제 실패: " ++ diag)), store := store,
          spanPassed := some (commitSpan ev) } := by
      unfold delete_event
      simp [hfind]
    refine ⟨by rw [h1], by rw [h1], ?_, by rw [h2], by rw [h2]⟩
    rw [h1]
    unfold find_event removeEventById
    have hn : ((store.events.filter (fun x => !(x.eventIdentifier == event_id))).find?
        (fun x => x.eventIdentifier == event_id)) = none := by
      rw [List.find?_eq_none]
      intro x hx
      have hx2 := (List.mem_filter.mp hx).2
      simp at hx2 ⊢
      exact hx2
    simp [hn]

/-- Witness for C8: deleting the non-recurring sample event returns its
captured title. -/
theorem delete_event_contract_witness :
    find_event sampleStore ("e2") = .ok samplePlainEvent ∧
    (delete_event sampleStore none ("e2")).result = .ok (pyStr samplePlainEvent.title) :=
  ⟨rfl, ((delete_event_contract sampleStore ("e2") ("boom")).2 samplePlainEvent rfl).1⟩

theorem list_events_ok_sorted (store : EKEventStore) (s e : DateTime)
    (cn : Option String) (l : List Event) (h : list_events store s e cn = .ok l) :
    l.Pairwise (fun a b => startLe a b = true) := by
  cases cn with
  | none =>
    have h2 : (Except.ok (List.mergeSort ((eventsMatchingPredicate store s e none).map
        Event.from_ekevent) startLe) : Except CalendarError (List Event)) = Except.ok l := h
    cases h2
    exact List.sorted_mergeSort startLe_trans startLe_total _
  | some n =>
    by_cases hne : n = ""
    · subst hne
      have h2 : (Except.ok (List.mergeSort ((eventsMatchingPredicate store s e none).map
          Event.from_ekevent) startLe) : Except CalendarError (List Event)) = Except.ok l := h
      cases h2
      exact List.sorted_mergeSort startLe_trans startLe_total _
    · have hnb : (n == "") = false := by simp [hne]
      cases hf : find_calendar store (some n) with
      | error e0 =>
        have h3 : list_events store s e (some n) = .error e0 := by
          simp [list_events, hnb, hf]
        rw [h3] at h
        cases h
      | ok cal =>
        have h3 : list_events store s e (some n) =
            .ok (List.mergeSort ((eventsMatchingPredicate store s e (some [cal])).map
              Event.from_ekevent) startLe) := by
          simp [list_events, hnb, hf]
        rw [h3] at h
        cases h
        exact List.sorted_mergeSort startLe_trans startLe_total _

/-- C9 (implicit): every successful search result is the order-preserving
keyword filter of the (already sorted) listing over the derived window, and
is therefore itself sorted ascending by start time. -/
theorem search_events_sorted_implicit (store : EKEventStore) (now : DateTime)
    (keyword : String) (calendar_name : Option String) (days_back days_forward : Int)
    (r : List Event)
    (h : search_events store now keyword calendar_name days_back days_forward = .ok r) :
    (∃ l, list_events store (addDays now (-days_back)) (addDays now days_forward)
        calendar_name = .ok l ∧
      r = l.filter (fun x => matchesKeyword (pyLower keyword) x) ∧
      l.Pairwise (fun a b => startLe a b = true)) ∧
    r.Pairwise (fun a b => startLe a b = true) := by
  unfold search_events at h
  cases hl : list_events store (addDays now (-days_back)) (addDays now days_forward)
      calendar_name with
  | error e0 =>
    simp only [hl] at h
    cases h
  | ok l =>
    simp only [hl] at h
    have hr : r = l.filter (fun x => matchesKeyword (pyLower keyword) x) := by
      cases h
      rfl
    have hsort := list_events_ok_sorted store _ _ calendar_name l hl
    subst hr
    exact ⟨⟨l, rfl, rfl, hsort⟩, hsort.filter _⟩

/-- Witness for C9: the empty store searches to the empty (sorted) result. -/
theorem search_events_sorted_implicit_witness :
    (∃ l, list_events emptyStore (addDays dt2026 (-1)) (addDays dt2026 1) none = .ok l ∧
      ([] : List Event) = l.filter (fun x => matchesKeyword (pyLower ("x")) x) ∧
      l.Pairwise (fun a b => startLe a b = true)) ∧
    ([] : List Event).Pairwise (fun a b => startLe a b = true) :=
  search_events_sorted_implicit emptyStore dt2026 ("x") none 1 1 []
    (by simp [search_events, list_events, eventsMatchingPredicate, emptyStore])

/-- C10 (implicit): an empty-string calendar name is falsy for the listing
truthiness test, so listing and searching with "" behave exactly as with no
name at all (querying every calendar, never failing); only the update path,
which tests presence rather than truthiness, resolves "" and then raises
`NoSuchCalendar("")` when no calendar has the empty title. -/
theorem empty_calendar_name_behavior (store : EKEventStore) (s e : DateTime) :
    list_events store s e (some ("")) = list_events store s e none ∧
    (∀ (now : DateTime) (keyword : String) (days_back days_forward : Int),
      search_events store now keyword (some ("")) days_back days_forward =
        search_events store now keyword none days_back days_forward) ∧
    (∃ r, list_events store s e (some ("")) = .ok r) ∧
    (∀ ev req, req.calendar_name = some ("") → "" ∉ store.calendars →
      update_fields store ev req = .error (.noSuchCalendar (""))) := by
  refine ⟨rfl, ?_, ⟨_, rfl⟩, ?_⟩
  · intro now keyword days_back days_forward
    rfl
  · intro ev req hcal hmem
    rw [update_fields_eq_some store ev req ("") hcal]
    rw [show find_calendar store (some ("")) = .error (.noSuchCalendar ("")) from by
      simp [find_calendar, find_none_of_not_mem store.calendars ("") hmem]]

/-- Witness for C10: on the empty store, an update request naming the empty
calendar attempts resolution and fails with `NoSuchCalendar("")`. -/
theorem empty_calendar_name_behavior_witness :
    ("" ∉ emptyStore.calendars) ∧
    update_fields emptyStore sampleEvent { calendar_name := some ("") } =
      .error (.noSuchCalendar ("")) :=
  ⟨by decide, (empty_calendar_name_behavior emptyStore dt2026 dt2026).2.2.2 sampleEvent
    { calendar_name := some ("") } rfl (by decide)⟩
